import Mathlib

/-
Verification of the streaming-event reconciliation client (talk_to_agent.py)
and the IRBot proxy agent (agents/ace_dmo_irbot/irbot_agent.py).

The embedding models JSON wire data with the Value type below.  Stream event
payloads arrive from the langgraph SDK as decoded JSON (mappings, sequences,
scalars), so the object-attribute probing branches of the source
(getattr/hasattr on non-dict objects) are never taken for such payloads and
are modelled as the corresponding "no" cases.
-/

set_option maxRecDepth 4096

/-! ## String helpers mirroring the Python primitives used by the source -/

/-- Mirrors list-level matching of a pattern at the head (used for substring
and startswith tests, implemented on character lists so that closed instances
reduce in the kernel). -/
def leadsIn : List Char → List Char → Bool
  | [], _ => true
  | _ :: _, [] => false
  | a :: as, b :: bs => a = b && leadsIn as bs

/-- Mirrors the Python `pat in s` substring test. -/
def containsSubAux (pat : List Char) : List Char → Bool
  | [] => leadsIn pat []
  | c :: rest => leadsIn pat (c :: rest) || containsSubAux pat rest

def containsSub (s pat : String) : Bool := containsSubAux pat.data s.data

/-- Mirrors the Python str.startswith test. -/
def strLeadsWith (s pre : String) : Bool := leadsIn pre.data s.data

/-- Python whitespace characters stripped by str.strip (ASCII subset). -/
def isPyWhitespace (c : Char) : Bool :=
  c = ' ' || c = '\t' || c = '\n' || c = '\r' || c = '\x0b' || c = '\x0c'

/-- Mirrors Python str.strip(). -/
def pyStrip (s : String) : String :=
  ⟨((s.data.dropWhile isPyWhitespace).reverse.dropWhile isPyWhitespace).reverse⟩

/-- Mirrors Python str.lower() (the ASCII range suffices for the compared literals). -/
def pyLower (s : String) : String := ⟨s.data.map Char.toLower⟩

/-- Mirrors "".join(parts). -/
def joinAll : List String → String
  | [] => ""
  | x :: xs => x ++ joinAll xs

/-- Mirrors sep.join(parts) for a separator. -/
def joinSep (sep : String) : List String → String
  | [] => ""
  | [x] => x
  | x :: y :: xs => x ++ sep ++ joinSep sep (y :: xs)

/-- Last element of a list with a default: models repeated overwriting of a
variable by the elements of the list, in order. -/
def lastD : List String → String → String
  | [], d => d
  | x :: xs, _ => lastD xs x

/-! ## JSON-like values (decoded wire data) -/

inductive Value where
  | vnull
  | vbool (b : Bool)
  | vint (n : Int)
  | vstr (s : String)
  | vlist (xs : List Value)
  | vdict (kvs : List (String × Value))

/-- Python truthiness of a JSON value. -/
def truthy : Value → Bool
  | .vnull => false
  | .vbool b => b
  | .vint n => n != 0
  | .vstr s => s ≠ ""
  | .vlist xs => !xs.isEmpty
  | .vdict kvs => !kvs.isEmpty

/-- Python `x or y` on values (returns x when truthy, else y). -/
def pyOrv (a b : Value) : Value := if truthy a then a else b

/-- dict.get(k) (None when absent), over an insertion-ordered association
list; Python dicts have unique keys so first match is the binding. -/
def lookupV (kvs : List (String × Value)) (k : String) : Option Value :=
  match kvs with
  | [] => none
  | (k0, v) :: tl => if k0 = k then some v else lookupV tl k

/-- dict.get(k) with None (vnull) default. -/
def dGetD (kvs : List (String × Value)) (k : String) : Value :=
  (lookupV kvs k).getD .vnull

/-- Python `k in d`. -/
def hasKeyV (kvs : List (String × Value)) (k : String) : Bool :=
  (lookupV kvs k).isSome

def isNullV : Value → Bool
  | .vnull => true
  | _ => false

mutual

/-- Mirrors Python repr() on JSON-like values (nested positions of str()). -/
def pyRepr : Value → String
  | .vnull => "None"
  | .vbool true => "True"
  | .vbool false => "False"
  | .vint n => toString n
  | .vstr s => "'" ++ s ++ "'"
  | .vlist xs => "[" ++ pyReprList xs ++ "]"
  | .vdict kvs => "\x7b" ++ pyReprDict kvs ++ "\x7d"

def pyReprList : List Value → String
  | [] => ""
  | [x] => pyRepr x
  | x :: y :: xs => pyRepr x ++ ", " ++ pyReprList (y :: xs)

def pyReprDict : List (String × Value) → String
  | [] => ""
  | [(k, v)] => "'" ++ k ++ "': " ++ pyRepr v
  | (k, v) :: p :: xs => "'" ++ k ++ "': " ++ pyRepr v ++ ", " ++ pyReprDict (p :: xs)

end

/-- Mirrors Python str() on JSON-like values. -/
def pyStr : Value → String
  | .vstr s => s
  | v => pyRepr v

/-! ## talk_to_agent.py — session file (lines 37-45) -/

/-- State of the persisted session (thread id) file as seen by one read. -/
inductive FileState where
  | absent
  | unreadable
  | content (s : String)

/-- Embeds load_thread_id (talk_to_agent.py lines 37-45): absent file gives
None, a read failure is caught and gives None, otherwise the stripped text,
with the empty string collapsed to None by `value or None`. -/
def load_thread_id : FileState → Option String
  | .absent => none
  | .unreadable => none
  | .content s =>
      let value := pyStrip s
      if value = "" then none else some value

/-! ## talk_to_agent.py — message extraction helpers (lines 56-157) -/

/-- Embeds extract_message_content (lines 56-82) on JSON values.  For a
mapping the content key is read (attribute access yields None for JSON data);
string content is returned as is; list content is joined from its string and
text/content parts; a content of None (absent key or null) yields the empty
string; anything else is stringified. -/
def extract_message_content (message : Value) : String :=
  let content : Option Value :=
    match message with
    | .vdict kvs => lookupV kvs "content"
    | _ => none
  match content with
  | none => ""
  | some .vnull => ""
  | some (.vstr s) => s
  | some (.vlist parts) =>
      let ps := parts.foldr
        (fun part acc =>
          match part with
          | .vstr s => s :: acc
          | .vdict kvs =>
              (match lookupV kvs "text" with
               | some (.vstr t) => t :: acc
               | _ =>
                  match lookupV kvs "content" with
                  | some (.vstr c) => c :: acc
                  | _ => acc)
          | _ => acc) []
      if ps ≠ [] then joinSep "\n" ps else pyStr (.vlist parts)
  | some v => pyStr v

mutual

/-- Embeds _collect_messages_recursively (lines 85-105): every list found
under a messages key of any nested mapping, flattened; a mapping contributes
its direct messages first and then recurses into all its values, a sequence
recurses into its items. -/
def collect_messages_recursively : Value → List Value
  | .vdict kvs =>
      (match lookupV kvs "messages" with
       | some (.vlist ms) => ms
       | _ => []) ++ cmrPairs kvs
  | .vlist xs => cmrList xs
  | _ => []

def cmrPairs : List (String × Value) → List Value
  | [] => []
  | (_, v) :: tl => collect_messages_recursively v ++ cmrPairs tl

def cmrList : List Value → List Value
  | [] => []
  | v :: tl => collect_messages_recursively v ++ cmrList tl

end

/-- Python membership test `role in ("ai", "assistant")` on a value. -/
def isAssistantRole (role : Value) : Bool :=
  match role with
  | .vstr s => s = "ai" || s = "assistant"
  | _ => false

mutual

/-- Embeds _collect_assistant_texts_recursively (lines 108-132): string
contents of mappings whose type-or-role is ai or assistant, collected in a
preorder walk over all nested values. -/
def collect_assistant_texts_recursively : Value → List String
  | .vdict kvs =>
      (match lookupV kvs "content",
             isAssistantRole (pyOrv (dGetD kvs "type") (dGetD kvs "role")) with
       | some (.vstr c), true => [c]
       | _, _ => []) ++ catPairs kvs
  | .vlist xs => catList xs
  | _ => []

def catPairs : List (String × Value) → List String
  | [] => []
  | (_, v) :: tl => collect_assistant_texts_recursively v ++ catPairs tl

def catList : List Value → List String
  | [] => []
  | v :: tl => collect_assistant_texts_recursively v ++ catList tl

end

mutual

/-- Embeds _collect_metadata_recursively (lines 135-157): every mapping found
under a response_metadata key anywhere in the payload, in a preorder walk. -/
def collect_metadata_recursively : Value → List (List (String × Value))
  | .vdict kvs =>
      (match lookupV kvs "response_metadata" with
       | some (.vdict md) => [md]
       | _ => []) ++ cmdPairs kvs
  | .vlist xs => cmdList xs
  | _ => []

def cmdPairs : List (String × Value) → List (List (String × Value))
  | [] => []
  | (_, v) :: tl => collect_metadata_recursively v ++ cmdPairs tl

def cmdList : List Value → List (List (String × Value))
  | [] => []
  | v :: tl => collect_metadata_recursively v ++ cmdList tl

end

/-- Embeds _prefer_irbot_metadata (lines 160-177): keep the current metadata
when there is no new one, take the new one when there is no current one,
otherwise prefer whichever carries the irbot key, and with neither marked
keep the newest. -/
def prefer_irbot_metadata (current new_md : Option (List (String × Value))) :
    Option (List (String × Value)) :=
  match new_md with
  | none => current
  | some n =>
      match current with
      | none => some n
      | some c =>
          let new_has_irbot := hasKeyV n "irbot"
          let cur_has_irbot := hasKeyV c "irbot"
          if new_has_irbot && !cur_has_irbot then some n
          else if cur_has_irbot then some c
          else some n

/-! ## talk_to_agent.py — streaming loop state (send_message, lines 257-507) -/

/-- One unit received from the remote stream: the event name (empty when the
chunk carries none) and the decoded JSON payload. -/
structure Event where
  event : String
  data : Value

/-- The mutable loop variables of send_message (lines 280-284).  The printed
output and the audit log are tracked separately. -/
structure LoopState where
  lastText : String
  assembled : List String
  lastMetadata : Option (List (String × Value))
  printedAny : Bool

def initState : LoopState := ⟨"", [], none, false⟩

/-- One stdout write performed while processing an event: token fragments are
written raw, every other surfaced text is written with a leading newline. -/
inductive Out where
  | token (s : String)
  | line (s : String)

/-- Texts surfaced with a leading newline, in order. -/
def linesOf : List Out → List String
  | [] => []
  | .line s :: tl => s :: linesOf tl
  | .token _ :: tl => linesOf tl

/-- Working state while processing one event: the loop state, the per-event
seen_texts_this_event set (line 305, reset for every event) and the writes
performed so far in this event. -/
structure EvState where
  st : LoopState
  seen : List String
  out : List Out

/-- The deduplicated surfacing used at lines 334-338, 367-371, 431-435 and
460-464: print the text with a leading newline and record printed_any only
when it is not in the per-event seen set, adding it to the set. -/
def emitLine (e : EvState) (t : String) : EvState :=
  if t ∈ e.seen then e
  else
    { st := { e.st with printedAny := true }
    , seen := e.seen ++ [t]
    , out := e.out ++ [.line t] }

/-- Reads response_metadata from a message-like JSON value when it is a
mapping holding a mapping there (the isinstance checks of lines 340-343 and
elsewhere). -/
def metadataOf (m : Value) : Option (List (String × Value)) :=
  match m with
  | .vdict kvs =>
      match lookupV kvs "response_metadata" with
      | some (.vdict md) => some md
      | _ => none
  | _ => none

/-- Direct assignment of response_metadata from a message (the pattern of
lines 340-343, 390-393 and 438-441: not the preference rule). -/
def applyDirectMeta (e : EvState) (m : Value) : EvState :=
  match metadataOf m with
  | some rm => { e with st := { e.st with lastMetadata := some rm } }
  | none => e

/-- Metadata assignment through _prefer_irbot_metadata (lines 374-377). -/
def applyPreferMeta (e : EvState) (m : Value) : EvState :=
  match metadataOf m with
  | some rm =>
      { e with st := { e.st with
          lastMetadata := prefer_irbot_metadata e.st.lastMetadata (some rm) } }
  | none => e

/-- The text half of the loops at lines 330-338 and 427-435: a non-empty
extracted text overwrites last_text and is surfaced deduplicated. -/
def textOverwriteStep (e : EvState) (m : Value) : EvState :=
  let txt := extract_message_content m
  if txt = "" then e
  else emitLine { e with st := { e.st with lastText := txt } } txt

/-- Per-message body shared by the two identical loops at lines 330-345 (data
already a list of messages) and 427-443 (messages key of the payload). -/
def msgTextMetaStep (e : EvState) (m : Value) : EvState :=
  applyDirectMeta (textOverwriteStep e m) m

/-- The type-or-role of a message-like JSON value (line 363; attribute access
yields None for JSON data). -/
def roleOfMsg (m : Value) : Value :=
  match m with
  | .vdict kvs => pyOrv (dGetD kvs "type") (dGetD kvs "role")
  | _ => .vnull

/-- The text half of the nested-node loop at lines 363-371: only texts of ai
or assistant messages are surfaced (deduplicated, without touching
last_text). -/
def assistantEmitStep (e : EvState) (m : Value) : EvState :=
  if isAssistantRole (roleOfMsg m) then
    let txt := extract_message_content m
    if txt = "" then e else emitLine e txt
  else e

/-- Per-message body of the nested-node loop at lines 362-379. -/
def dictMsgStep (e : EvState) (m : Value) : EvState :=
  applyPreferMeta (assistantEmitStep e m) m

/-- The messages gathered by lines 349-361: the direct messages list when the
payload has one, else the lists under node keys, else the recursive search. -/
def collectNodeMsgs (kvs : List (String × Value)) : List Value :=
  match lookupV kvs "messages" with
  | some (.vlist ms) => ms
  | _ =>
      let fromNodes := kvs.foldl
        (fun acc p =>
          match p.2 with
          | .vdict kvs2 =>
              (match lookupV kvs2 "messages" with
               | some (.vlist ms2) => acc ++ ms2
               | _ => acc)
          | _ => acc) []
      if fromNodes.isEmpty then collect_messages_recursively (.vdict kvs)
      else fromNodes

/-- Lines 329-345: when the payload itself is a list of messages. -/
def listBranch (e : EvState) (data : Value) : EvState :=
  match data with
  | .vlist ms => ms.foldl msgTextMetaStep e
  | _ => e

/-- Lines 347-379: nested node messages of a mapping payload when the event
name is non-empty and the payload truthy. -/
def dictBranch (e : EvState) (evt : String) (data : Value) : EvState :=
  match data with
  | .vdict kvs =>
      if evt ≠ "" && truthy (.vdict kvs) then
        (collectNodeMsgs kvs).foldl dictMsgStep e
      else e
  | _ => e

/-- Lines 381-395: the values snapshot event overwrites last_text with the
payload extraction and assigns response_metadata directly. -/
def valuesBranch (e : EvState) (evt : String) (data : Value) : EvState :=
  if evt = "values" then
    let candidate := extract_message_content data
    let e1 :=
      if candidate = "" then e
      else { e with st := { e.st with lastText := candidate } }
    applyDirectMeta e1 data
  else e

/-- The token fragment a chat-model-stream event yields (lines 396-409),
empty when the event is not a token event or nothing extracts. -/
def eventTokenText (evt : String) (data : Value) : String :=
  if containsSub evt "on_chat_model_stream" then
    match data with
    | .vdict kvs =>
        if hasKeyV kvs "chunk" then extract_message_content (dGetD kvs "chunk")
        else if hasKeyV kvs "delta" then extract_message_content (dGetD kvs "delta")
        else
          match lookupV kvs "content" with
          | some (.vstr s) => s
          | _ => ""
    | _ => extract_message_content data
  else ""

/-- Lines 396-414: a non-empty token fragment is appended to assembled_text
and written raw (no dedup, printed_any untouched). -/
def tokenBranch (e : EvState) (evt : String) (data : Value) : EvState :=
  let part := eventTokenText evt data
  if part = "" then e
  else
    { e with st := { e.st with assembled := e.st.assembled ++ [part] },
             out := e.out ++ [.token part] }

/-- Lines 416-454: when the payload is a mapping with a truthy messages entry
that is a non-empty list, run the shared per-message body on it.  The else
branch (payload with a content attribute, lines 445-454) never fires for JSON
payloads, a mapping has no content attribute. -/
def messagesFieldBranch (e : EvState) (data : Value) : EvState :=
  let mo : Option Value :=
    match data with
    | .vdict kvs =>
        match lookupV kvs "messages" with
        | some v => if truthy v then some v else none
        | none => none
    | _ => none
  match mo with
  | some (.vlist ms) => ms.foldl msgTextMetaStep e
  | some _ => e
  | none => e

/-- One step of the metadata merge at lines 467-469 (each collected mapping
goes through the preference rule). -/
def mdPreferFoldStep (e : EvState) (md : List (String × Value)) : EvState :=
  { e with st := { e.st with
      lastMetadata := prefer_irbot_metadata e.st.lastMetadata (some md) } }

/-- Lines 456-476: for events whose name starts with updates, surface every
recursively collected assistant text (deduplicated) and merge every collected
response_metadata through the preference rule.  The immediate display of
irbot metadata (lines 470-476) writes formatted metadata, not extracted
message text, and is not tracked as a surfaced text. -/
def updatesBranch (e : EvState) (evt : String) (data : Value) : EvState :=
  if strLeadsWith evt "updates" then
    match data with
    | .vdict _ | .vlist _ =>
        let e1 := (collect_assistant_texts_recursively data).foldl emitLine e
        (collect_metadata_recursively data).foldl mdPreferFoldStep e1
    | _ => e
  else e

def containerKeys : List String := ["result", "output", "final_output", "value", "response"]

/-- One key of the fallback container scan (lines 480-487): a present,
non-null entry with non-empty extraction overwrites last_text and is written
with a newline WITHOUT consulting the per-event seen set. -/
def containerKeyStep (kvs : List (String × Value)) (e : EvState) (key : String) : EvState :=
  match lookupV kvs key with
  | some v =>
      if isNullV v then e
      else
        let candidate := extract_message_content v
        if candidate = "" then e
        else
          { e with st := { e.st with lastText := candidate, printedAny := true },
                   out := e.out ++ [.line candidate] }
  | none => e

/-- Lines 478-487 (the attribute-based scan of lines 489-499 never fires for
JSON payloads). -/
def containerBranch (e : EvState) (data : Value) : EvState :=
  match data with
  | .vdict kvs => containerKeys.foldl (containerKeyStep kvs) e
  | _ => e

/-- One iteration of the streaming loop body (lines 299-499) on one event:
the per-event seen set starts empty; the branches run in source order. -/
def stepEvent (st : LoopState) (ev : Event) : LoopState × List Out :=
  let e0 : EvState := ⟨st, [], []⟩
  let e1 := listBranch e0 ev.data
  let e2 := dictBranch e1 ev.event ev.data
  let e3 := valuesBranch e2 ev.event ev.data
  let e4 := tokenBranch e3 ev.event ev.data
  let e5 := messagesFieldBranch e4 ev.data
  let e6 := updatesBranch e5 ev.event ev.data
  let e7 := containerBranch e6 ev.data
  (e7.st, e7.out)

/-- The loop over the whole stream. -/
def processEvents (st : LoopState) (events : List Event) : LoopState :=
  events.foldl (fun st ev => (stepEvent st ev).1) st

/-- Lines 500-507: prefer the captured snapshot text, else the joined token
buffer, else empty. -/
def finalizeText (st : LoopState) : String :=
  if st.lastText ≠ "" then st.lastText
  else if st.assembled ≠ [] then joinAll st.assembled
  else ""

/-! ## talk_to_agent.py — send_message with session-loss recovery (lines 508-550) -/

/-- How one remote stream attempt ends: normal close or an exception whose
text is msg (raised after the listed events were delivered). -/
inductive StreamEnd where
  | ok
  | raise (msg : String)

/-- The events one runs.stream call delivers and how it ends. -/
structure StreamRun where
  events : List Event
  ending : StreamEnd

/-- The remote environment of one logical send: what each successive stream
attempt (indexed 0, 1, 2) against a given thread id delivers, and the thread
id that ensure_thread_id(reset := true) would produce (None when creation
fails; ensure_thread_id itself never raises, lines 228-254). -/
structure Env where
  stream : Nat → Option String → StreamRun
  ensured : Option String

/-- The tuple send_message returns (line 269). -/
structure SendResult where
  text : String
  updatedThreadId : Option String
  metadata : Option (List (String × Value))
  printedAny : Bool

/-- Observable side effects of one logical send: the thread ids of the stream
attempts performed in order, how many times a thread was force-created, and
the audit-log entries appended (event name and payload; the timestamp field
is real time and not modelled, _to_jsonable on decoded JSON is the
identity). -/
structure SendTrace where
  attempts : List (Option String)
  ensureCalls : Nat
  log : List (String × Value)

/-- Python truthiness of the optional thread id (line 511 `if thread_id`). -/
def threadTruthy : Option String → Bool
  | some s => s ≠ ""
  | none => false

/-- Line 511: the error text marks a lost session. -/
def isNotFound (m : String) : Bool := containsSub m "404" || containsSub m "Not Found"

/-- One stream attempt: every delivered event is processed in order (and
appended to the audit log when a log path is configured, line 326), the final
loop state is kept only when the stream closed normally. -/
structure AttemptOut where
  st : LoopState
  error : Option String
  log : List (String × Value)

def runAttempt (env : Env) (idx : Nat) (threadId : Option String)
    (logPath : Option String) : AttemptOut :=
  let a := env.stream idx threadId
  { st := processEvents initState a.events
  , error := match a.ending with | .ok => none | .raise m => some m
  , log :=
      match logPath with
      | some _ => a.events.map (fun ev => (ev.event, ev.data))
      | none => [] }

/-- The call with _attempt = 2 (threadless fallback, lines 536-545): the
thread id is None, so a further exception is terminal (line 511 guard). -/
def send_message_attempt2 (env : Env) (logPath : Option String) :
    SendResult × SendTrace :=
  let a := runAttempt env 2 none logPath
  match a.error with
  | none => (⟨finalizeText a.st, none, a.st.lastMetadata, a.st.printedAny⟩,
             ⟨[none], 0, a.log⟩)
  | some _ => (⟨"", none, none, false⟩, ⟨[none], 0, a.log⟩)

/-- The call with _attempt = 1 (retry on the force-created thread, lines
522-531): a second not-found error with a truthy thread id falls back to the
threadless call; the recursive call receives neither debug_stream nor
stream_log, so its events are not logged (lines 536-545). -/
def send_message_attempt1 (env : Env) (threadId : Option String)
    (logPath : Option String) : SendResult × SendTrace :=
  let a := runAttempt env 1 threadId logPath
  match a.error with
  | none => (⟨finalizeText a.st, none, a.st.lastMetadata, a.st.printedAny⟩,
             ⟨[threadId], 0, a.log⟩)
  | some m =>
      if threadTruthy threadId && isNotFound m then
        let r := send_message_attempt2 env none
        (⟨r.1.text, none, r.1.metadata, r.1.printedAny⟩,
         ⟨threadId :: r.2.attempts, r.2.ensureCalls, a.log ++ r.2.log⟩)
      else (⟨"", none, none, false⟩, ⟨[threadId], 0, a.log⟩)

/-- Embeds send_message (lines 257-550) for the top-level call (_attempt = 0).
On a not-found error with a truthy thread id it force-creates a new thread id
once (ensure_thread_id with reset := true, line 514) and retries once with it;
the recursive call receives neither debug_stream nor stream_log (lines
522-531), so retry events are not logged.  Any other error is terminal with
an empty result (lines 549-550). -/
def send_message (env : Env) (threadId : Option String) (logPath : Option String) :
    SendResult × SendTrace :=
  let a := runAttempt env 0 threadId logPath
  match a.error with
  | none => (⟨finalizeText a.st, none, a.st.lastMetadata, a.st.printedAny⟩,
             ⟨[threadId], 0, a.log⟩)
  | some m =>
      if threadTruthy threadId && isNotFound m then
        let newId := env.ensured
        let r := send_message_attempt1 env newId none
        (⟨r.1.text, newId, r.1.metadata, r.1.printedAny⟩,
         ⟨threadId :: r.2.attempts, 1 + r.2.ensureCalls, a.log ++ r.2.log⟩)
      else (⟨"", none, none, false⟩, ⟨[threadId], 0, a.log⟩)

/-! ## agents/ace_dmo_irbot/irbot_agent.py -/

/-- A message the agent entrypoint may receive: framework message objects
(HumanMessage, AIMessage, SystemMessage, each with a type attribute of
human, ai or system) or mapping payloads from other runtimes (lines
148-162). -/
inductive AMsg where
  | human (content : Value) (additionalKwargs : List (String × Value))
  | ai (content : Value) (responseMetadata : Option (List (String × Value)))
  | system (content : Value)
  | dict (kvs : List (String × Value))

/-- A backend JSON response as a mapping (resp.json(), line 44; a non-mapping
body would raise inside _extract_text_from_response and be caught by the
backend-error handler). -/
abbrev BDict := List (String × Value)

/-- The external collaborators of one agent turn, opaque per the contract:
the IRBot userquery call as a function of query and session id (raising is
the error case, carrying str(exc)), and the outcome of the explanation
completion task (raising is the error case; the task returns the empty
string when no API key is configured). -/
structure AgentEnv where
  backend : String → Value → Except String BDict
  explain : Except Unit String

/-- The AIMessage the agent returns. -/
structure AIOut where
  content : String
  responseMetadata : Option BDict

/-- The observable outcome of one agent turn: the returned message, the
history passed to save (None means the previous history stays), and the
backend call performed, if any, with its query and session id. -/
structure AgentResult where
  value : AIOut
  save : Option (List AMsg)
  backendCall : Option (String × Value)

/-- Lines 148-162: the latest message that is a HumanMessage object (or any
object whose type attribute is human), or a mapping with type human / role
user-or-human and truthy content. -/
def isHumanSelected : AMsg → Bool
  | .human _ _ => true
  | .dict kvs =>
      (match lookupV kvs "type" with
       | some (.vstr "human") => truthy (dGetD kvs "content")
       | _ => false)
      ||
      (match lookupV kvs "role" with
       | some (.vstr "user") => truthy (dGetD kvs "content")
       | some (.vstr "human") => truthy (dGetD kvs "content")
       | _ => false)
  | _ => false

def findLastUser (messages : List AMsg) : Option AMsg :=
  messages.reverse.find? isHumanSelected

/-- Lines 201-205: the content of the selected message coerced to a string
(None becomes the empty string, non-strings are stringified). -/
def userTextOf (m : AMsg) : String :=
  let c : Value :=
    match m with
    | .human c _ => c
    | .ai c _ => c
    | .system c => c
    | .dict kvs => dGetD kvs "content"
  match c with
  | .vnull => ""
  | .vstr s => s
  | v => pyStr v

/-- The _get helper of lines 171-181 on JSON config data (mapping get with
default; non-mappings yield the default). -/
def cget (c : Value) (k : String) (d : Value) : Value :=
  match c with
  | .vdict kvs => (lookupV kvs k).getD d
  | _ => d

/-- Lines 183-191: the session id resolved from the config, a chain of
truthiness-based fallbacks ending in the string unknown. -/
def sessionFromConfig (config : Value) : Value :=
  let cfg := if truthy config then config else .vdict []
  let cfgConf0 := cget cfg "configurable" (.vdict [])
  let cfgConf := if truthy cfgConf0 then cfgConf0 else .vdict []
  pyOrv (cget cfg "thread_id" .vnull)
    (pyOrv (cget cfgConf "thread_id" .vnull)
      (pyOrv (cget cfgConf "session_id" .vnull)
        (pyOrv (cget cfg "thread" .vnull)
          (pyOrv (cget cfgConf "thread" .vnull) (.vstr "unknown")))))

/-- Lines 206-216: when the config gave no session id, recover one from the
additional_kwargs of the selected message. -/
def recoverSession (lastUser : AMsg) (session : Value) : Value :=
  match session with
  | .vstr "unknown" =>
      (match lastUser with
       | .human _ ak => pyOrv (dGetD ak "session_id") session
       | .dict kvs =>
           let ak0 := dGetD kvs "additional_kwargs"
           let ak := if truthy ak0 then ak0 else .vdict []
           (match ak with
            | .vdict akkvs => pyOrv (dGetD akkvs "session_id") session
            | _ => session)
       | _ => session)
  | _ => session

/-- Embeds _extract_text_from_response (lines 47-54): the first of the
conventional fields holding a string with non-empty strip, else the
stringified mapping. -/
def extract_text_from_response (data : BDict) : String :=
  let pick := fun (key : String) =>
    match lookupV data key with
    | some (.vstr s) => if pyStrip s = "" then none else some s
    | _ => none
  match pick "answer" with
  | some s => s
  | none =>
      match pick "message" with
      | some s => s
      | none =>
          match pick "text" with
          | some s => s
          | none =>
              match pick "content" with
              | some s => s
              | none =>
                  match pick "response" with
                  | some s => s
                  | none => pyStr (.vdict data)

/-- The responseType-or-type-or-format chain (lines 97 and 243), lowered when
it is a string (lines 244-245). -/
def respTypeValue (b : BDict) : Value :=
  let rt := pyOrv (dGetD b "responseType") (pyOrv (dGetD b "type") (dGetD b "format"))
  match rt with
  | .vstr s => .vstr (pyLower s)
  | v => v

/-- Line 247: the condition under which the agent takes the tabular branch
(the lowered type field equals table, or both columns and values are
present). -/
def takesTabularBranch (b : BDict) : Bool :=
  (match respTypeValue b with
   | .vstr s => s = "table"
   | _ => false)
  || (hasKeyV b "columns" && hasKeyV b "values")

/-- Lines 95-104: the table heuristic of _maybe_generate_explanation (here
the lowered type field may equal table OR tabular). -/
def hasTableHeuristic (b : BDict) : Bool :=
  (match respTypeValue b with
   | .vstr s => s = "table" || s = "tabular"
   | _ => false)
  || (hasKeyV b "columns" && hasKeyV b "values")

/-- Embeds _maybe_generate_explanation (lines 92-136): None unless the table
heuristic holds; otherwise the explanation task is invoked (the serialised
conversation it receives only feeds the opaque completion call and is not
modelled) and its result is returned with the empty string and any exception
collapsed to None (`content or None`, line 134, and the except of line 135). -/
def maybe_generate_explanation (env : AgentEnv) (b : BDict) : Option String :=
  if hasTableHeuristic b then
    match env.explain with
    | .error _ => none
    | .ok content => if content = "" then none else some content
  else none

/-- Lines 222-257 of the agent (reply shaping after a successful backend
call): extract the plain text; on the tabular branch (line 247) generate an
explanation, fall back to the plain text when it is empty, and attach the
full backend JSON as irbot response metadata; otherwise return the plain
text; in both cases extend and save the conversation history. -/
def agentShapeReply (env : AgentEnv) (previous : Option (List AMsg))
    (user_text : String) (session : Value) (backend : BDict) : AgentResult :=
  let text := extract_text_from_response backend
  if takesTabularBranch backend then
    let expl := maybe_generate_explanation env backend
    let content_out :=
      match expl with
      | some s => if s = "" then text else s
      | none => text
    let ai : AIOut := ⟨content_out, some [("irbot", .vdict backend)]⟩
    ⟨ai,
     some ((previous.getD []) ++
       [.human (.vstr user_text) [], .ai (.vstr content_out) ai.responseMetadata]),
     some (user_text, session)⟩
  else
    ⟨⟨text, none⟩,
     some ((previous.getD []) ++
       [.human (.vstr user_text) [], .ai (.vstr text) none]),
     some (user_text, session)⟩

/-- The body of the agent turn once a user message was selected (lines
168-261): resolve the session id from the config (lines 183-191), extract
the user text (lines 201-205), recover the session id from the message when
the config gave none (lines 206-216), short-circuit blank text (lines
217-219), call the backend and shape the reply (lines 221-257), catching a
backend exception as a visible Backend error message with nothing saved
(lines 258-261). -/
def agentTurn (env : AgentEnv) (lastUser : AMsg) (previous : Option (List AMsg))
    (config : Value) : AgentResult :=
  let session0 := sessionFromConfig config
  let user_text := userTextOf lastUser
  let session := recoverSession lastUser session0
  if pyStrip user_text = "" then
    ⟨⟨"", none⟩, none, none⟩
  else
    match env.backend user_text session with
    | .error exc =>
        ⟨⟨"Backend error: " ++ exc, none⟩, none, some (user_text, session)⟩
    | .ok backend => agentShapeReply env previous user_text session backend

/-- Embeds the agent entrypoint (lines 139-261).  Empty input, no detectable
user message, and blank user text return fixed messages with save := None
and no backend call; a backend exception returns the Backend error message
with save := None; otherwise the tabular branch attaches the full backend
JSON as irbot response metadata and falls back to the plain text extraction
when the explanation is empty, and the history is extended and saved. -/
def agent (env : AgentEnv) (messages : List AMsg) (previous : Option (List AMsg))
    (config : Value) : AgentResult :=
  if messages.isEmpty then
    ⟨⟨"No input message received.", none⟩, none, none⟩
  else
    match findLastUser messages with
    | none => ⟨⟨"No user message found.", none⟩, none, none⟩
    | some lastUser => agentTurn env lastUser previous config

/-! ## Declarative per-event summaries (for the refinement statements) -/

/-- The non-empty extracted texts of a message list, in order. -/
def nonEmptyTexts (ms : List Value) : List String :=
  (ms.map extract_message_content).filter (fun t => t ≠ "")

/-- The successive last_text assignments the direct-list rule makes. -/
def listAuth (data : Value) : List String :=
  match data with
  | .vlist ms => nonEmptyTexts ms
  | _ => []

/-- The last_text assignment the values-snapshot rule makes. -/
def valuesAuth (evt : String) (data : Value) : List String :=
  if evt = "values" then
    if extract_message_content data = "" then [] else [extract_message_content data]
  else []

/-- The successive last_text assignments the messages-field rule makes. -/
def msgsFieldAuth (data : Value) : List String :=
  match data with
  | .vdict kvs =>
      match lookupV kvs "messages" with
      | some v =>
          if truthy v then
            match v with
            | .vlist ms => nonEmptyTexts ms
            | _ => []
          else []
      | none => []
  | _ => []

/-- The text one fallback-container key contributes, if any. -/
def containerTextOf (kvs : List (String × Value)) (k : String) : Option String :=
  match lookupV kvs k with
  | some v =>
      if isNullV v then none
      else
        let c := extract_message_content v
        if c = "" then none else some c
  | none => none

/-- The successive last_text assignments of the fallback-container scan. -/
def containerAuth (data : Value) : List String :=
  match data with
  | .vdict kvs => containerKeys.filterMap (containerTextOf kvs)
  | _ => []

/-- All last_text assignments one event makes, in source order: direct list,
values snapshot, messages field, fallback containers. -/
def authAssign (ev : Event) : List String :=
  listAuth ev.data ++ valuesAuth ev.event ev.data ++
    msgsFieldAuth ev.data ++ containerAuth ev.data

/-- The token fragments one event appends to the token buffer. -/
def eventTokens (ev : Event) : List String :=
  if eventTokenText ev.event ev.data = "" then []
  else [eventTokenText ev.event ev.data]

/-- Formalisation of the claim wording for C1: the last assistant-authored
text of an event payload (the repository notion of assistant-authored, a
type-or-role of ai or assistant). -/
def lastAssistantText (ev : Event) : Option String :=
  (collect_assistant_texts_recursively ev.data).getLast?

/-- Formalisation of the claim wording for C6: a response is claimed tabular
when its type field is a table-indicating string (the set the repository
itself uses at line 99: table or tabular) or both columns and values are
present. -/
def claimTabular (b : BDict) : Bool :=
  (match respTypeValue b with
   | .vstr s => s = "table" || s = "tabular"
   | _ => false)
  || (hasKeyV b "columns" && hasKeyV b "values")

/-- The captured metadata carries the irbot marker key. -/
def hasIrbotO : Option (List (String × Value)) → Bool
  | some md => hasKeyV md "irbot"
  | none => false

/-! ## Supporting lemmas -/

theorem agent_selects (env : AgentEnv) (messages : List AMsg)
    (previous : Option (List AMsg)) (config : Value) (lastUser : AMsg)
    (hne : messages ≠ []) (h : findLastUser messages = some lastUser) :
    agent env messages previous config = agentTurn env lastUser previous config := by
  unfold agent
  rw [h]
  simp [List.isEmpty_iff, hne]

/-! ## Claims -/

/-- C5: the metadata preference operation returns the current map when the
new one is None, the new map when the current one is None, the new map when
it carries irbot and the current one does not, the current map whenever the
current carries irbot, the new map when neither carries irbot; and the two
concrete merges of the claim. -/
theorem c5_prefer_irbot_metadata (c n : List (String × Value)) :
    (∀ cur : Option (List (String × Value)), prefer_irbot_metadata cur none = cur)
    ∧ prefer_irbot_metadata none (some n) = some n
    ∧ (hasKeyV n "irbot" = true → hasKeyV c "irbot" = false →
        prefer_irbot_metadata (some c) (some n) = some n)
    ∧ (hasKeyV c "irbot" = true →
        prefer_irbot_metadata (some c) (some n) = some c)
    ∧ (hasKeyV c "irbot" = false → hasKeyV n "irbot" = false →
        prefer_irbot_metadata (some c) (some n) = some n)
    ∧ prefer_irbot_metadata (some [("a", .vint 1)]) (some [("irbot", .vdict [])])
        = some [("irbot", .vdict [])]
    ∧ prefer_irbot_metadata (some [("irbot", .vdict [])]) (some [("a", .vint 1)])
        = some [("irbot", .vdict [])] := by
  refine ⟨fun cur => rfl, rfl, ?_, ?_, ?_, rfl, rfl⟩
  · intro h1 h2
    simp [prefer_irbot_metadata, h1, h2]
  · intro h1
    simp [prefer_irbot_metadata, h1]
  · intro h1 h2
    simp [prefer_irbot_metadata, h1, h2]

/-- C5 witness: the preference rule applied at concrete inputs. -/
theorem c5_prefer_irbot_metadata_w :
    prefer_irbot_metadata (some [("irbot", .vdict [])]) (some [("x", .vint 2)])
      = some [("irbot", .vdict [])] :=
  (c5_prefer_irbot_metadata [("irbot", .vdict [])] [("x", .vint 2)]).2.2.2.1 rfl

/-- C8: load returns None for an absent or unreadable session file and for
content blank after stripping, and otherwise the stripped content; the
embedding is a total function, the read failure case is the caught-exception
path of the source. -/
theorem c8_load_thread_id (s : String) :
    load_thread_id .absent = none
    ∧ load_thread_id .unreadable = none
    ∧ (pyStrip s = "" → load_thread_id (.content s) = none)
    ∧ (pyStrip s ≠ "" → load_thread_id (.content s) = some (pyStrip s)) := by
  refine ⟨rfl, rfl, fun h => ?_, fun h => ?_⟩ <;> simp [load_thread_id, h]

/-- C8 witness: the contract applied to concrete file contents. -/
theorem c8_load_thread_id_w :
    load_thread_id (.content "  abc\n") = some "abc"
    ∧ load_thread_id (.content " \t ") = none := by
  constructor
  · have h := (c8_load_thread_id "  abc\n").2.2.2 (by decide)
    rw [h]; rfl
  · exact (c8_load_thread_id " \t ").2.2.1 (by decide)

theorem agentTurn_backend_error (env : AgentEnv) (lastUser : AMsg)
    (previous : Option (List AMsg)) (config : Value) (exc : String)
    (h1 : pyStrip (userTextOf lastUser) ≠ "")
    (h2 : env.backend (userTextOf lastUser)
            (recoverSession lastUser (sessionFromConfig config)) = .error exc) :
    agentTurn env lastUser previous config =
      ⟨⟨"Backend error: " ++ exc, none⟩, none,
       some (userTextOf lastUser, recoverSession lastUser (sessionFromConfig config))⟩ := by
  simp only [agentTurn]
  rw [if_neg h1, h2]

/-- C9: when the backend call of a turn raises, the agent returns an
assistant message carrying the Backend error prefix and the exception
detail, performs the backend call exactly once, and saves nothing, leaving
the previously persisted history unchanged. -/
theorem c9_backend_error (env : AgentEnv) (previous : Option (List AMsg))
    (ut exc : String)
    (h1 : pyStrip ut ≠ "")
    (h2 : env.backend ut (.vstr "unknown") = .error exc) :
    agent env [.human (.vstr ut) []] previous (.vdict []) =
      ⟨⟨"Backend error: " ++ exc, none⟩, none, some (ut, .vstr "unknown")⟩ := by
  rw [agent_selects env [.human (.vstr ut) []] previous (.vdict [])
        (.human (.vstr ut) []) (by simp) rfl]
  exact agentTurn_backend_error env (.human (.vstr ut) []) previous (.vdict []) exc h1 h2

/-- C9 witness: the backend-error path at concrete inputs. -/
theorem c9_backend_error_w :
    agent ⟨fun _ _ => .error "boom", .ok ""⟩ [.human (.vstr "hi") []] none (.vdict []) =
      ⟨⟨"Backend error: boom", none⟩, none, some ("hi", .vstr "unknown")⟩ :=
  c9_backend_error ⟨fun _ _ => .error "boom", .ok ""⟩ none "hi" "boom" (by decide) rfl

theorem agentTurn_blank (env : AgentEnv) (lastUser : AMsg)
    (previous : Option (List AMsg)) (config : Value)
    (h : pyStrip (userTextOf lastUser) = "") :
    agentTurn env lastUser previous config = ⟨⟨"", none⟩, none, none⟩ := by
  simp only [agentTurn]
  rw [if_pos h]

theorem agentTurn_backend_ok (env : AgentEnv) (lastUser : AMsg)
    (previous : Option (List AMsg)) (config : Value) (b : BDict)
    (h1 : pyStrip (userTextOf lastUser) ≠ "")
    (h2 : env.backend (userTextOf lastUser)
            (recoverSession lastUser (sessionFromConfig config)) = .ok b) :
    agentTurn env lastUser previous config =
      agentShapeReply env previous (userTextOf lastUser)
        (recoverSession lastUser (sessionFromConfig config)) b := by
  simp only [agentTurn]
  rw [if_neg h1, h2]

theorem takesTabular_implies_heuristic (b : BDict)
    (h : takesTabularBranch b = true) : hasTableHeuristic b = true := by
  unfold takesTabularBranch at h
  unfold hasTableHeuristic
  cases hr : respTypeValue b <;> rw [hr] at h <;> simp_all [Bool.or_eq_true]
  tauto

/-- C10: an empty input list yields the fixed no-input message, an input with
no detectable user message yields the fixed no-user message, and a selected
user message whose text is blank after stripping yields an empty assistant
message; in all three cases the backend is not called and nothing is saved
(save := None), leaving the persisted history unchanged. -/
theorem c10_missing_user_message (env : AgentEnv) (previous : Option (List AMsg))
    (config : Value) (messages : List AMsg) (m : AMsg) :
    agent env [] previous config =
      ⟨⟨"No input message received.", none⟩, none, none⟩
    ∧ (messages ≠ [] → findLastUser messages = none →
        agent env messages previous config =
          ⟨⟨"No user message found.", none⟩, none, none⟩)
    ∧ (findLastUser messages = some m → pyStrip (userTextOf m) = "" →
        agent env messages previous config = ⟨⟨"", none⟩, none, none⟩) := by
  refine ⟨rfl, fun hne hfind => ?_, fun hfind hblank => ?_⟩
  · unfold agent
    rw [hfind]
    simp [List.isEmpty_iff, hne]
  · have hne : messages ≠ [] := by
      intro hmsg
      rw [hmsg] at hfind
      simp [findLastUser] at hfind
    rw [agent_selects env messages previous config m hne hfind]
    exact agentTurn_blank env m previous config hblank

/-- C10 witness: the three no-user paths at concrete inputs. -/
theorem c10_missing_user_message_w :
    agent ⟨fun _ _ => .ok [], .ok ""⟩ [] none .vnull =
      ⟨⟨"No input message received.", none⟩, none, none⟩
    ∧ agent ⟨fun _ _ => .ok [], .ok ""⟩ [.ai (.vstr "x") none] none .vnull =
      ⟨⟨"No user message found.", none⟩, none, none⟩
    ∧ agent ⟨fun _ _ => .ok [], .ok ""⟩ [.human (.vstr "  ") []] none .vnull =
      ⟨⟨"", none⟩, none, none⟩ :=
  ⟨(c10_missing_user_message ⟨fun _ _ => .ok [], .ok ""⟩ none .vnull []
      (.system .vnull)).1,
   (c10_missing_user_message ⟨fun _ _ => .ok [], .ok ""⟩ none .vnull
      [.ai (.vstr "x") none] (.system .vnull)).2.1 (by simp) rfl,
   (c10_missing_user_message ⟨fun _ _ => .ok [], .ok ""⟩ none .vnull
      [.human (.vstr "  ") []] (.human (.vstr "  ") [])).2.2 rfl (by decide)⟩

/-- C6 (amended): for every backend response mapping reaching the reply
shaping of a turn, the agent takes the tabular branch (signalled by the full
backend JSON attached as irbot response metadata) if and only if the
lowered responseType/type/format field equals table or both columns and
values keys are present; and on the tabular branch an empty or failed
explanation falls back to the plain-text extraction of the response. -/
theorem c6_tabular_classification (env : AgentEnv) (previous : Option (List AMsg))
    (ut : String) (b : BDict)
    (h1 : pyStrip ut ≠ "")
    (h2 : env.backend ut (.vstr "unknown") = .ok b) :
    ((agent env [.human (.vstr ut) []] previous (.vdict [])).value.responseMetadata
        = some [("irbot", .vdict b)]
      ↔ takesTabularBranch b = true)
    ∧ (takesTabularBranch b = true →
        (env.explain = .ok "" ∨ env.explain = .error ()) →
        (agent env [.human (.vstr ut) []] previous (.vdict [])).value.content
          = extract_text_from_response b) := by
  rw [agent_selects env [.human (.vstr ut) []] previous (.vdict [])
        (.human (.vstr ut) []) (by simp) rfl]
  rw [agentTurn_backend_ok env (.human (.vstr ut) []) previous (.vdict []) b h1 h2]
  constructor
  · cases h : takesTabularBranch b <;> simp [agentShapeReply, h]
  · intro h hexp
    have hmg : maybe_generate_explanation env b = none := by
      unfold maybe_generate_explanation
      rw [if_pos (takesTabular_implies_heuristic b h)]
      rcases hexp with he | he <;> simp [he]
    simp [agentShapeReply, h, hmg]

def c6CexBackend : BDict := [("responseType", .vstr "tabular"), ("answer", .vstr "hi")]

def c6CexEnv : AgentEnv := ⟨fun _ _ => .ok c6CexBackend, .ok "explained"⟩

/-- C6 counterexample: the response whose type field is tabular is
table-indicating by the repository heuristic (line 99) and carries neither
columns nor values, yet the agent does not take the tabular branch (line 247
compares against table only), so the claimed equivalence fails as stated. -/
theorem c6_tabular_classification_cex :
    claimTabular c6CexBackend = true
    ∧ takesTabularBranch c6CexBackend = false
    ∧ (agent c6CexEnv [.human (.vstr "q") []] none (.vdict [])).value.responseMetadata
        = none :=
  ⟨rfl, rfl, rfl⟩

def c6WBackend : BDict := [("responseType", .vstr "Table"), ("answer", .vstr "42")]

def c6WEnv : AgentEnv := ⟨fun _ _ => .ok c6WBackend, .ok ""⟩

/-- C6 witness: a table response gets the irbot metadata and, with an empty
explanation, the plain-text fallback content. -/
theorem c6_tabular_classification_w :
    (agent c6WEnv [.human (.vstr "q") []] none (.vdict [])).value.responseMetadata
      = some [("irbot", .vdict c6WBackend)]
    ∧ (agent c6WEnv [.human (.vstr "q") []] none (.vdict [])).value.content
      = extract_text_from_response c6WBackend :=
  ⟨((c6_tabular_classification c6WEnv none "q" c6WBackend (by decide) rfl).1).mpr rfl,
   (c6_tabular_classification c6WEnv none "q" c6WBackend (by decide) rfl).2 rfl
     (Or.inl rfl)⟩

theorem attempt2_attempts (env : Env) (lp : Option String) :
    (send_message_attempt2 env lp).2.attempts = [none] := by
  simp only [send_message_attempt2]
  split <;> rfl

theorem attempt1_attempts_len (env : Env) (tid lp : Option String) :
    (send_message_attempt1 env tid lp).2.attempts.length ≤ 2 := by
  simp only [send_message_attempt1]
  split
  · simp
  · split
    · simp [attempt2_attempts]
    · simp

theorem send_message_attempts_len (env : Env) (tid lp : Option String) :
    (send_message env tid lp).2.attempts.length ≤ 3 := by
  simp only [send_message]
  split
  · simp
  · split
    · simpa using attempt1_attempts_len env env.ensured none
    · simp

/-- C2: a first attempt that raises a not-found error with a truthy thread id
force-creates a new thread id exactly once and retries exactly once with it;
when that retry raises a not-found error again, exactly one threadless
attempt follows and nothing after it; in every case at most three stream
attempts occur per logical send. -/
theorem c2_session_loss_recovery (env : Env) (t u e : String) (evs0 : List Event)
    (lp : Option String)
    (ht : t ≠ "") (hu : u ≠ "")
    (h0 : env.stream 0 (some t) = ⟨evs0, .raise e⟩)
    (he : isNotFound e = true)
    (hens : env.ensured = some u) :
    (send_message env (some t) lp).2.ensureCalls = 1
    ∧ (send_message env (some t) lp).2.attempts =
        some t :: some u ::
          (match (env.stream 1 (some u)).ending with
           | .ok => ([] : List (Option String))
           | .raise e2 => if isNotFound e2 then [none] else [])
    ∧ (∀ env' tid lp', ((send_message env' tid lp').2.attempts).length ≤ 3) := by
  have hguard : (threadTruthy (some t) && isNotFound e) = true := by
    simp [threadTruthy, ht, he]
  have hmain : send_message env (some t) lp =
      (let r := send_message_attempt1 env (some u) none
       (⟨r.1.text, some u, r.1.metadata, r.1.printedAny⟩,
        ⟨some t :: r.2.attempts, 1 + r.2.ensureCalls,
         (match lp with
          | some _ => evs0.map (fun ev => (ev.event, ev.data))
          | none => []) ++ r.2.log⟩)) := by
    simp only [send_message, runAttempt, h0, hguard, hens, if_true]
  refine ⟨?_, ?_, fun env' tid lp' => send_message_attempts_len env' tid lp'⟩
  · rw [hmain]
    have h1 : (send_message_attempt1 env (some u) none).2.ensureCalls = 0 := by
      simp only [send_message_attempt1]
      split
      · rfl
      · split
        · simp only [send_message_attempt2]
          split <;> rfl
        · rfl
    simp [h1]
  · rw [hmain]
    have h1 : (send_message_attempt1 env (some u) none).2.attempts =
        some u ::
          (match (env.stream 1 (some u)).ending with
           | .ok => ([] : List (Option String))
           | .raise e2 => if isNotFound e2 then [none] else []) := by
      simp only [send_message_attempt1, runAttempt]
      rcases hse : env.stream 1 (some u) with ⟨evs1, end1⟩
      cases end1 with
      | ok => rfl
      | raise e2 =>
          simp only [threadTruthy, hu]
          cases hnf : isNotFound e2 with
          | true => simp [hnf, attempt2_attempts, hu]
          | false => simp [hnf, hu]
    simp [h1]

def c2WEnv : Env :=
  { stream := fun i _ =>
      match i with
      | 0 => ⟨[], .raise "HTTP 404: thread missing"⟩
      | 1 => ⟨[], .raise "Not Found"⟩
      | _ => ⟨[], .ok⟩
  , ensured := some "t2" }

/-- C2 witness: the full three-attempt trace at a concrete environment. -/
theorem c2_session_loss_recovery_w :
    (send_message c2WEnv (some "t1") none).2.ensureCalls = 1
    ∧ (send_message c2WEnv (some "t1") none).2.attempts = [some "t1", some "t2", none]
    ∧ ((send_message c2WEnv (some "t1") none).2.attempts).length ≤ 3 := by
  have h := c2_session_loss_recovery c2WEnv "t1" "t2" "HTTP 404: thread missing" []
    none (by decide) (by decide) rfl (by decide) rfl
  exact ⟨h.1, h.2.1, h.2.2 c2WEnv (some "t1") none⟩

def c7Env : Env :=
  { stream := fun i _ =>
      match i with
      | 0 => ⟨[⟨"values", .vstr "x"⟩], .raise "404"⟩
      | _ => ⟨[⟨"values", .vstr "y"⟩], .ok⟩
  , ensured := some "t2" }

/-- C7 (code bug demonstration): with an audit log configured, a first
attempt that delivers one event and then raises a not-found error is
followed by a retry that delivers one event; the retry attempt runs (two
attempts traced) yet the audit log holds only the first-attempt entry,
because the recursive retry calls do not forward stream_log (lines 522-531
and 536-545). -/
theorem c7_retry_events_unlogged :
    (send_message c7Env (some "t1") (some "events.jsonl")).2.log
        = [("values", .vstr "x")]
    ∧ (send_message c7Env (some "t1") (some "events.jsonl")).2.attempts
        = [some "t1", some "t2"]
    ∧ (c7Env.stream 1 (some "t2")).events.length = 1 :=
  ⟨rfl, rfl, rfl⟩

/-! ## Branch-level lemmas about the streaming loop -/

theorem foldl_lastText_const {α : Type} (f : EvState → α → EvState)
    (hf : ∀ e x, (f e x).st.lastText = e.st.lastText) :
    ∀ (l : List α) (e : EvState), (l.foldl f e).st.lastText = e.st.lastText := by
  intro l
  induction l with
  | nil => intro e; rfl
  | cons x tl ih => intro e; rw [List.foldl_cons, ih, hf]

theorem foldl_assembled_const {α : Type} (f : EvState → α → EvState)
    (hf : ∀ e x, (f e x).st.assembled = e.st.assembled) :
    ∀ (l : List α) (e : EvState), (l.foldl f e).st.assembled = e.st.assembled := by
  intro l
  induction l with
  | nil => intro e; rfl
  | cons x tl ih => intro e; rw [List.foldl_cons, ih, hf]

theorem foldl_metadata_const {α : Type} (f : EvState → α → EvState)
    (hf : ∀ e x, (f e x).st.lastMetadata = e.st.lastMetadata) :
    ∀ (l : List α) (e : EvState), (l.foldl f e).st.lastMetadata = e.st.lastMetadata := by
  intro l
  induction l with
  | nil => intro e; rfl
  | cons x tl ih => intro e; rw [List.foldl_cons, ih, hf]

theorem foldl_irbot_preserve {α : Type} (f : EvState → α → EvState)
    (hf : ∀ e x, hasIrbotO e.st.lastMetadata = true →
          hasIrbotO (f e x).st.lastMetadata = true) :
    ∀ (l : List α) (e : EvState), hasIrbotO e.st.lastMetadata = true →
      hasIrbotO (l.foldl f e).st.lastMetadata = true := by
  intro l
  induction l with
  | nil => intro e h; exact h
  | cons x tl ih => intro e h; rw [List.foldl_cons]; exact ih _ (hf e x h)

theorem emitLine_lastText (e : EvState) (t : String) :
    (emitLine e t).st.lastText = e.st.lastText := by
  unfold emitLine; split <;> rfl

theorem emitLine_assembled (e : EvState) (t : String) :
    (emitLine e t).st.assembled = e.st.assembled := by
  unfold emitLine; split <;> rfl

theorem emitLine_metadata (e : EvState) (t : String) :
    (emitLine e t).st.lastMetadata = e.st.lastMetadata := by
  unfold emitLine; split <;> rfl

theorem prefer_irbot_preserve (cur : Option (List (String × Value)))
    (x : Option (List (String × Value)))
    (h : hasIrbotO cur = true) :
    hasIrbotO (prefer_irbot_metadata cur x) = true := by
  cases x with
  | none => exact h
  | some n =>
      cases cur with
      | none => simp [hasIrbotO] at h
      | some c =>
          have hc : hasKeyV c "irbot" = true := h
          simp [prefer_irbot_metadata, hc, hasIrbotO]

theorem applyDirectMeta_lastText (e : EvState) (m : Value) :
    (applyDirectMeta e m).st.lastText = e.st.lastText := by
  unfold applyDirectMeta; split <;> rfl

theorem applyDirectMeta_assembled (e : EvState) (m : Value) :
    (applyDirectMeta e m).st.assembled = e.st.assembled := by
  unfold applyDirectMeta; split <;> rfl

theorem applyPreferMeta_lastText (e : EvState) (m : Value) :
    (applyPreferMeta e m).st.lastText = e.st.lastText := by
  unfold applyPreferMeta; split <;> rfl

theorem applyPreferMeta_assembled (e : EvState) (m : Value) :
    (applyPreferMeta e m).st.assembled = e.st.assembled := by
  unfold applyPreferMeta; split <;> rfl

theorem applyPreferMeta_irbot (e : EvState) (m : Value)
    (h : hasIrbotO e.st.lastMetadata = true) :
    hasIrbotO (applyPreferMeta e m).st.lastMetadata = true := by
  unfold applyPreferMeta
  split
  next rm heq => simpa using prefer_irbot_preserve e.st.lastMetadata (some rm) h
  next => exact h

theorem textOverwriteStep_lastText (e : EvState) (m : Value) :
    (textOverwriteStep e m).st.lastText =
      if extract_message_content m = "" then e.st.lastText
      else extract_message_content m := by
  simp only [textOverwriteStep]
  split
  · simp_all
  · simp_all [emitLine_lastText]

theorem textOverwriteStep_assembled (e : EvState) (m : Value) :
    (textOverwriteStep e m).st.assembled = e.st.assembled := by
  simp only [textOverwriteStep]
  split
  · rfl
  · simp [emitLine_assembled]

theorem msgTextMetaStep_lastText (e : EvState) (m : Value) :
    (msgTextMetaStep e m).st.lastText =
      if extract_message_content m = "" then e.st.lastText
      else extract_message_content m := by
  unfold msgTextMetaStep
  rw [applyDirectMeta_lastText, textOverwriteStep_lastText]

theorem msgTextMetaStep_assembled (e : EvState) (m : Value) :
    (msgTextMetaStep e m).st.assembled = e.st.assembled := by
  unfold msgTextMetaStep
  rw [applyDirectMeta_assembled, textOverwriteStep_assembled]

theorem assistantEmitStep_lastText (e : EvState) (m : Value) :
    (assistantEmitStep e m).st.lastText = e.st.lastText := by
  simp only [assistantEmitStep]
  split
  · split
    · rfl
    · simp [emitLine_lastText]
  · rfl

theorem assistantEmitStep_assembled (e : EvState) (m : Value) :
    (assistantEmitStep e m).st.assembled = e.st.assembled := by
  simp only [assistantEmitStep]
  split
  · split
    · rfl
    · simp [emitLine_assembled]
  · rfl

theorem assistantEmitStep_metadata (e : EvState) (m : Value) :
    (assistantEmitStep e m).st.lastMetadata = e.st.lastMetadata := by
  simp only [assistantEmitStep]
  split
  · split
    · rfl
    · simp [emitLine_metadata]
  · rfl

theorem dictMsgStep_lastText (e : EvState) (m : Value) :
    (dictMsgStep e m).st.lastText = e.st.lastText := by
  unfold dictMsgStep
  rw [applyPreferMeta_lastText, assistantEmitStep_lastText]

theorem dictMsgStep_assembled (e : EvState) (m : Value) :
    (dictMsgStep e m).st.assembled = e.st.assembled := by
  unfold dictMsgStep
  rw [applyPreferMeta_assembled, assistantEmitStep_assembled]

theorem dictMsgStep_irbot (e : EvState) (m : Value)
    (h : hasIrbotO e.st.lastMetadata = true) :
    hasIrbotO (dictMsgStep e m).st.lastMetadata = true := by
  unfold dictMsgStep
  refine applyPreferMeta_irbot _ m ?_
  rw [assistantEmitStep_metadata]
  exact h

theorem foldl_msgTextMetaStep_lastText :
    ∀ (ms : List Value) (e : EvState),
      (ms.foldl msgTextMetaStep e).st.lastText =
        lastD (nonEmptyTexts ms) e.st.lastText := by
  intro ms
  induction ms with
  | nil => intro e; rfl
  | cons m tl ih =>
      intro e
      rw [List.foldl_cons, ih]
      by_cases h : extract_message_content m = ""
      · simp [nonEmptyTexts, List.filter_cons, h, msgTextMetaStep_lastText]
      · simp only [nonEmptyTexts, List.map_cons, List.filter_cons]
        rw [if_pos (by simpa using h)]
        simp only [lastD]
        have hh : (msgTextMetaStep e m).st.lastText = extract_message_content m := by
          rw [msgTextMetaStep_lastText, if_neg h]
        rw [hh]

theorem foldl_msgTextMetaStep_assembled (ms : List Value) (e : EvState) :
    (ms.foldl msgTextMetaStep e).st.assembled = e.st.assembled :=
  foldl_assembled_const msgTextMetaStep msgTextMetaStep_assembled ms e

theorem listBranch_lastText (e : EvState) (data : Value) :
    (listBranch e data).st.lastText = lastD (listAuth data) e.st.lastText := by
  cases data <;>
    simp [listBranch, listAuth, lastD, foldl_msgTextMetaStep_lastText]

theorem listBranch_assembled (e : EvState) (data : Value) :
    (listBranch e data).st.assembled = e.st.assembled := by
  cases data <;> simp [listBranch, foldl_msgTextMetaStep_assembled]

theorem listBranch_id_of_dict (e : EvState) (kvs : List (String × Value)) :
    listBranch e (.vdict kvs) = e := rfl

theorem dictBranch_lastText (e : EvState) (evt : String) (data : Value) :
    (dictBranch e evt data).st.lastText = e.st.lastText := by
  cases data <;> first
    | rfl
    | (simp only [dictBranch]
       split
       · exact foldl_lastText_const dictMsgStep dictMsgStep_lastText _ e
       · rfl)

theorem dictBranch_assembled (e : EvState) (evt : String) (data : Value) :
    (dictBranch e evt data).st.assembled = e.st.assembled := by
  cases data <;> first
    | rfl
    | (simp only [dictBranch]
       split
       · exact foldl_assembled_const dictMsgStep dictMsgStep_assembled _ e
       · rfl)

theorem dictBranch_irbot (e : EvState) (evt : String) (data : Value)
    (h : hasIrbotO e.st.lastMetadata = true) :
    hasIrbotO (dictBranch e evt data).st.lastMetadata = true := by
  cases data <;> simp only [dictBranch] <;> try exact h
  split
  · exact foldl_irbot_preserve dictMsgStep dictMsgStep_irbot _ e h
  · exact h

theorem valuesBranch_lastText (e : EvState) (evt : String) (data : Value) :
    (valuesBranch e evt data).st.lastText =
      lastD (valuesAuth evt data) e.st.lastText := by
  simp only [valuesBranch, valuesAuth]
  by_cases hv : evt = "values"
  · rw [if_pos hv, if_pos hv, applyDirectMeta_lastText]
    by_cases h : extract_message_content data = ""
    · simp [h, lastD]
    · simp [h, lastD]
  · rw [if_neg hv, if_neg hv]
    rfl

theorem valuesBranch_assembled (e : EvState) (evt : String) (data : Value) :
    (valuesBranch e evt data).st.assembled = e.st.assembled := by
  simp only [valuesBranch]
  by_cases hv : evt = "values"
  · rw [if_pos hv, applyDirectMeta_assembled]
    split <;> rfl
  · rw [if_neg hv]

theorem valuesBranch_id_of_ne (e : EvState) (evt : String) (data : Value)
    (hv : evt ≠ "values") : valuesBranch e evt data = e := by
  simp only [valuesBranch]
  rw [if_neg hv]

theorem tokenBranch_lastText (e : EvState) (evt : String) (data : Value) :
    (tokenBranch e evt data).st.lastText = e.st.lastText := by
  simp only [tokenBranch]
  split <;> rfl

theorem tokenBranch_metadata (e : EvState) (evt : String) (data : Value) :
    (tokenBranch e evt data).st.lastMetadata = e.st.lastMetadata := by
  simp only [tokenBranch]
  split <;> rfl

theorem tokenBranch_assembled (e : EvState) (evt : String) (data : Value) :
    (tokenBranch e evt data).st.assembled =
      e.st.assembled ++
        (if eventTokenText evt data = "" then [] else [eventTokenText evt data]) := by
  simp only [tokenBranch]
  split <;> simp_all

theorem messagesFieldBranch_lastText (e : EvState) (data : Value) :
    (messagesFieldBranch e data).st.lastText =
      lastD (msgsFieldAuth data) e.st.lastText := by
  cases data <;> simp only [messagesFieldBranch, msgsFieldAuth] <;> try rfl
  next kvs =>
    cases hl : lookupV kvs "messages" with
    | none => rfl
    | some v =>
        by_cases ht : truthy v = true
        · simp only [hl, ht, if_true]
          cases v <;> simp [foldl_msgTextMetaStep_lastText, lastD]
        · simp only [hl]
          rw [if_neg (by simpa using ht), if_neg (by simpa using ht)]
          rfl

theorem messagesFieldBranch_assembled (e : EvState) (data : Value) :
    (messagesFieldBranch e data).st.assembled = e.st.assembled := by
  cases data <;> first
    | rfl
    | (next kvs =>
        simp only [messagesFieldBranch]
        cases hl : lookupV kvs "messages" with
        | none => rfl
        | some v =>
            by_cases ht : truthy v = true
            · simp only [hl, ht, if_true]
              cases v <;> simp [foldl_msgTextMetaStep_assembled]
            · simp only [hl]
              rw [if_neg (by simpa using ht)])

theorem messagesFieldBranch_id_of_none (e : EvState) (kvs : List (String × Value))
    (hl : lookupV kvs "messages" = none) :
    messagesFieldBranch e (.vdict kvs) = e := by
  simp only [messagesFieldBranch, hl]

theorem mdPreferFoldStep_lastText (e : EvState) (md : List (String × Value)) :
    (mdPreferFoldStep e md).st.lastText = e.st.lastText := rfl

theorem mdPreferFoldStep_assembled (e : EvState) (md : List (String × Value)) :
    (mdPreferFoldStep e md).st.assembled = e.st.assembled := rfl

theorem mdPreferFoldStep_irbot (e : EvState) (md : List (String × Value))
    (h : hasIrbotO e.st.lastMetadata = true) :
    hasIrbotO (mdPreferFoldStep e md).st.lastMetadata = true := by
  simpa [mdPreferFoldStep] using prefer_irbot_preserve e.st.lastMetadata (some md) h

theorem updatesBranch_lastText (e : EvState) (evt : String) (data : Value) :
    (updatesBranch e evt data).st.lastText = e.st.lastText := by
  simp only [updatesBranch]
  split
  · cases data <;> try rfl
    all_goals
      rw [foldl_lastText_const mdPreferFoldStep mdPreferFoldStep_lastText,
          foldl_lastText_const emitLine emitLine_lastText]
  · rfl

theorem updatesBranch_assembled (e : EvState) (evt : String) (data : Value) :
    (updatesBranch e evt data).st.assembled = e.st.assembled := by
  simp only [updatesBranch]
  split
  · cases data <;> try rfl
    all_goals
      rw [foldl_assembled_const mdPreferFoldStep mdPreferFoldStep_assembled,
          foldl_assembled_const emitLine emitLine_assembled]
  · rfl

theorem updatesBranch_irbot (e : EvState) (evt : String) (data : Value)
    (h : hasIrbotO e.st.lastMetadata = true) :
    hasIrbotO (updatesBranch e evt data).st.lastMetadata = true := by
  simp only [updatesBranch]
  split
  · cases data <;> try exact h
    all_goals
      refine foldl_irbot_preserve mdPreferFoldStep mdPreferFoldStep_irbot _ _ ?_
      have hm : ∀ (e : EvState) (t : String),
          (emitLine e t).st.lastMetadata = e.st.lastMetadata := emitLine_metadata
      rw [foldl_metadata_const emitLine hm]
      exact h
  · exact h

theorem containerKeyStep_lastText (kvs : List (String × Value)) (e : EvState)
    (k : String) :
    (containerKeyStep kvs e k).st.lastText =
      match containerTextOf kvs k with
      | some c => c
      | none => e.st.lastText := by
  simp only [containerKeyStep, containerTextOf]
  cases hl : lookupV kvs k with
  | none => rfl
  | some v =>
      by_cases hn : isNullV v = true
      · simp [hn]
      · simp only [hn, Bool.false_eq_true, if_false]
        by_cases hc : extract_message_content v = ""
        · simp [hc]
        · simp [hc]

theorem containerKeyStep_assembled (kvs : List (String × Value)) (e : EvState)
    (k : String) :
    (containerKeyStep kvs e k).st.assembled = e.st.assembled := by
  simp only [containerKeyStep]
  cases hl : lookupV kvs k with
  | none => rfl
  | some v =>
      by_cases hn : isNullV v = true
      · simp [hn]
      · simp only [hn, Bool.false_eq_true, if_false]
        by_cases hc : extract_message_content v = ""
        · simp [hc]
        · simp [hc]

theorem containerKeyStep_metadata (kvs : List (String × Value)) (e : EvState)
    (k : String) :
    (containerKeyStep kvs e k).st.lastMetadata = e.st.lastMetadata := by
  simp only [containerKeyStep]
  cases hl : lookupV kvs k with
  | none => rfl
  | some v =>
      by_cases hn : isNullV v = true
      · simp [hn]
      · simp only [hn, Bool.false_eq_true, if_false]
        by_cases hc : extract_message_content v = ""
        · simp [hc]
        · simp [hc]

theorem foldl_containerKeyStep_lastText (kvs : List (String × Value)) :
    ∀ (keys : List String) (e : EvState),
      (keys.foldl (containerKeyStep kvs) e).st.lastText =
        lastD (keys.filterMap (containerTextOf kvs)) e.st.lastText := by
  intro keys
  induction keys with
  | nil => intro e; rfl
  | cons k tl ih =>
      intro e
      rw [List.foldl_cons, ih]
      cases hk : containerTextOf kvs k with
      | none =>
          rw [List.filterMap_cons_none hk]
          have hh : (containerKeyStep kvs e k).st.lastText = e.st.lastText := by
            rw [containerKeyStep_lastText, hk]
          rw [hh]
      | some c =>
          rw [List.filterMap_cons_some hk]
          have hh : (containerKeyStep kvs e k).st.lastText = c := by
            rw [containerKeyStep_lastText, hk]
          rw [hh]
          rfl

theorem containerBranch_lastText (e : EvState) (data : Value) :
    (containerBranch e data).st.lastText =
      lastD (containerAuth data) e.st.lastText := by
  cases data <;> first
    | rfl
    | exact foldl_containerKeyStep_lastText _ containerKeys e

theorem containerBranch_assembled (e : EvState) (data : Value) :
    (containerBranch e data).st.assembled = e.st.assembled := by
  cases data <;> first
    | rfl
    | exact foldl_assembled_const _ (containerKeyStep_assembled _) containerKeys e

theorem containerBranch_metadata (e : EvState) (data : Value) :
    (containerBranch e data).st.lastMetadata = e.st.lastMetadata := by
  cases data <;> first
    | rfl
    | exact foldl_metadata_const _ (containerKeyStep_metadata _) containerKeys e

theorem lastD_append (l1 l2 : List String) (d : String) :
    lastD (l1 ++ l2) d = lastD l2 (lastD l1 d) := by
  induction l1 generalizing d with
  | nil => rfl
  | cons x tl ih => simp [lastD, ih]

/-- The final text variable after one event is the last authoritative
assignment the event makes, defaulting to its previous value. -/
theorem stepEvent_lastText (st : LoopState) (ev : Event) :
    (stepEvent st ev).1.lastText = lastD (authAssign ev) st.lastText := by
  simp only [stepEvent, authAssign]
  rw [containerBranch_lastText, updatesBranch_lastText, messagesFieldBranch_lastText,
      tokenBranch_lastText, valuesBranch_lastText, dictBranch_lastText,
      listBranch_lastText]
  rw [lastD_append, lastD_append, lastD_append]

/-- The token buffer grows by exactly the token fragments of the event. -/
theorem stepEvent_assembled (st : LoopState) (ev : Event) :
    (stepEvent st ev).1.assembled = st.assembled ++ eventTokens ev := by
  simp only [stepEvent, eventTokens]
  rw [containerBranch_assembled, updatesBranch_assembled,
      messagesFieldBranch_assembled, tokenBranch_assembled, valuesBranch_assembled,
      dictBranch_assembled, listBranch_assembled]

/-- C4 (amended): on the paths that use the preference rule — the nested-node
message scan and the updates-mode recursive metadata collection — a captured
metadata map carrying irbot is never replaced by one lacking it: for any
updates event whose mapping payload has no top-level messages entry, the
irbot marker survives the event.  (The direct message-list, values-snapshot
and top-level messages-field branches assign the newest metadata
unconditionally, so the unrestricted claim fails; see the counterexample.) -/
theorem c4_metadata_preference (st : LoopState) (ev : Event)
    (kvs : List (String × Value))
    (hd : ev.data = .vdict kvs)
    (hm : lookupV kvs "messages" = none)
    (hu : strLeadsWith ev.event "updates" = true)
    (h : hasIrbotO st.lastMetadata = true) :
    hasIrbotO (stepEvent st ev).1.lastMetadata = true := by
  have hne : ev.event ≠ "values" := by
    intro hv
    rw [hv] at hu
    exact absurd hu (by decide)
  simp only [stepEvent, hd]
  rw [listBranch_id_of_dict, valuesBranch_id_of_ne _ _ _ hne,
      messagesFieldBranch_id_of_none _ kvs hm, containerBranch_metadata]
  refine updatesBranch_irbot _ _ _ ?_
  rw [tokenBranch_metadata]
  exact dictBranch_irbot _ _ _ h

def c4Ev1 : Event :=
  ⟨"e", .vdict [("messages", .vlist [.vdict
    [("type", .vstr "ai"), ("content", .vstr "a"),
     ("response_metadata", .vdict [("irbot", .vdict [])])]])]⟩

def c4Ev2 : Event :=
  ⟨"e", .vdict [("messages", .vlist [.vdict
    [("type", .vstr "ai"), ("content", .vstr "b"),
     ("response_metadata", .vdict [("a", .vint 1)])]])]⟩

/-- C4 counterexample: after an event whose message carries irbot metadata,
a later event whose message carries only a generic response_metadata map
overwrites the captured irbot metadata, because the top-level messages-field
branch (lines 438-441) assigns directly instead of using the preference
rule; so the claimed invariant fails as stated. -/
theorem c4_metadata_preference_cex :
    hasIrbotO (processEvents initState [c4Ev1]).lastMetadata = true
    ∧ (processEvents initState [c4Ev1, c4Ev2]).lastMetadata = some [("a", .vint 1)]
    ∧ hasIrbotO (processEvents initState [c4Ev1, c4Ev2]).lastMetadata = false :=
  ⟨rfl, rfl, rfl⟩

def c4WEv : Event :=
  ⟨"updates", .vdict [("node", .vdict [("messages", .vlist [.vdict
    [("type", .vstr "ai"), ("content", .vstr "t"),
     ("response_metadata", .vdict [("generic", .vint 7)])]])])]⟩

/-- C4 witness: an updates event whose nested message carries only generic
metadata leaves a captured irbot map in place. -/
theorem c4_metadata_preference_w :
    hasIrbotO (stepEvent ⟨"", [], some [("irbot", .vdict [])], false⟩ c4WEv).1.lastMetadata
      = true :=
  c4_metadata_preference ⟨"", [], some [("irbot", .vdict [])], false⟩ c4WEv
    [("node", .vdict [("messages", .vlist [.vdict
      [("type", .vstr "ai"), ("content", .vstr "t"),
       ("response_metadata", .vdict [("generic", .vint 7)])]])])]
    rfl rfl rfl rfl

/-- The token fragments of a whole event sequence, in arrival order. -/
def tokensOf : List Event → List String
  | [] => []
  | ev :: tl => eventTokens ev ++ tokensOf tl

theorem processEvents_lastText (events : List Event) :
    ∀ st : LoopState, (processEvents st events).lastText =
      events.foldl (fun d ev => lastD (authAssign ev) d) st.lastText := by
  induction events with
  | nil => intro st; rfl
  | cons ev tl ih =>
      intro st
      simp only [processEvents, List.foldl_cons]
      have hh := ih (stepEvent st ev).1
      simp only [processEvents] at hh
      rw [hh, stepEvent_lastText]

theorem processEvents_assembled (events : List Event) :
    ∀ st : LoopState, (processEvents st events).assembled =
      st.assembled ++ tokensOf events := by
  induction events with
  | nil => intro st; simp [processEvents, tokensOf]
  | cons ev tl ih =>
      intro st
      simp only [processEvents, List.foldl_cons, tokensOf]
      have hh := ih (stepEvent st ev).1
      simp only [processEvents] at hh
      rw [hh, stepEvent_assembled, List.append_assoc]

/-- C1 (amended): for a send whose stream completes normally, the returned
final text is the last text assigned by the authoritative extraction rules
(direct message list, values snapshot, messages field, fallback containers —
any message role, not only assistant-authored) from the latest event that
assigns one, each event overwriting earlier assignments; otherwise the
concatenation of the token fragments in arrival order; otherwise empty. -/
theorem c1_final_text_selection (env : Env) (tid lp : Option String)
    (evs : List Event)
    (h : env.stream 0 tid = ⟨evs, .ok⟩) :
    (send_message env tid lp).1.text =
      (if evs.foldl (fun d ev => lastD (authAssign ev) d) "" ≠ "" then
        evs.foldl (fun d ev => lastD (authAssign ev) d) ""
       else if tokensOf evs ≠ [] then joinAll (tokensOf evs)
       else "") := by
  simp only [send_message, runAttempt, h]
  simp only [finalizeText, processEvents_lastText, processEvents_assembled]
  rfl

def c1CexEv : Event :=
  ⟨"values", .vdict [("messages", .vlist
    [.vdict [("type", .vstr "ai"), ("content", .vstr "A")],
     .vdict [("type", .vstr "human"), ("content", .vstr "B")]])]⟩

def c1CexEnv : Env := ⟨fun _ _ => ⟨[c1CexEv], .ok⟩, none⟩

/-- C1 counterexample: a snapshot event whose message list ends with a
non-assistant message: the code returns the text of the last message with
non-empty content regardless of role (lines 427-435), here the human text B,
not the last assistant-authored text A, so the claim fails as stated. -/
theorem c1_final_text_selection_cex :
    (send_message c1CexEnv none none).1.text = "B"
    ∧ lastAssistantText c1CexEv = some "A"
    ∧ ("B" : String) ≠ "A" :=
  ⟨rfl, rfl, by decide⟩

def c1WEv : Event :=
  ⟨"values", .vdict [("messages", .vlist
    [.vdict [("type", .vstr "ai"), ("content", .vstr "hi")]])]⟩

def c1WEnv : Env := ⟨fun _ _ => ⟨[c1WEv], .ok⟩, none⟩

/-- C1 witness: the selection rule applied to a concrete one-event stream. -/
theorem c1_final_text_selection_w :
    (send_message c1WEnv none none).1.text =
      (if [c1WEv].foldl (fun d ev => lastD (authAssign ev) d) "" ≠ "" then
        [c1WEv].foldl (fun d ev => lastD (authAssign ev) d) ""
       else if tokensOf [c1WEv] ≠ [] then joinAll (tokensOf [c1WEv])
       else "") :=
  c1_final_text_selection c1WEnv none none [c1WEv] rfl

/-! ## Per-event deduplication invariant (C3) -/

/-- The invariant maintained by the set-tracked surfacing sites: the
newline-surfaced texts of the event are pairwise distinct and all recorded in
the per-event seen set. -/
def evInv (e : EvState) : Prop :=
  (linesOf e.out).Nodup ∧ ∀ t, t ∈ linesOf e.out → t ∈ e.seen

theorem linesOf_append (a b : List Out) :
    linesOf (a ++ b) = linesOf a ++ linesOf b := by
  induction a with
  | nil => rfl
  | cons x tl ih => cases x <;> simp [linesOf, ih]

theorem emitLine_inv (e : EvState) (t : String) (h : evInv e) :
    evInv (emitLine e t) := by
  unfold emitLine
  split
  · exact h
  · next hmem =>
      constructor
      · rw [linesOf_append]
        refine List.Nodup.append h.1 (by simp [linesOf]) ?_
        intro x hx hy
        simp [linesOf] at hy
        exact hmem (hy ▸ h.2 x hx)
      · intro x hx
        rw [linesOf_append] at hx
        rcases List.mem_append.mp hx with hx | hx
        · exact List.mem_append_left _ (h.2 x hx)
        · simp [linesOf] at hx
          simp [hx]

theorem foldl_inv {α : Type} (f : EvState → α → EvState)
    (hf : ∀ e x, evInv e → evInv (f e x)) :
    ∀ (l : List α) (e : EvState), evInv e → evInv (l.foldl f e) := by
  intro l
  induction l with
  | nil => intro e h; exact h
  | cons x tl ih => intro e h; exact ih _ (hf e x h)

theorem evInv_of_st_update (e : EvState) (s : LoopState) (h : evInv e) :
    evInv { e with st := s } := h

theorem applyDirectMeta_inv (e : EvState) (m : Value) (h : evInv e) :
    evInv (applyDirectMeta e m) := by
  unfold applyDirectMeta
  split
  · exact h
  · exact h

theorem applyPreferMeta_inv (e : EvState) (m : Value) (h : evInv e) :
    evInv (applyPreferMeta e m) := by
  unfold applyPreferMeta
  split
  · exact h
  · exact h

theorem textOverwriteStep_inv (e : EvState) (m : Value) (h : evInv e) :
    evInv (textOverwriteStep e m) := by
  simp only [textOverwriteStep]
  split
  · exact h
  · exact emitLine_inv _ _ h

theorem msgTextMetaStep_inv (e : EvState) (m : Value) (h : evInv e) :
    evInv (msgTextMetaStep e m) :=
  applyDirectMeta_inv _ _ (textOverwriteStep_inv _ _ h)

theorem assistantEmitStep_inv (e : EvState) (m : Value) (h : evInv e) :
    evInv (assistantEmitStep e m) := by
  simp only [assistantEmitStep]
  split
  · split
    · exact h
    · exact emitLine_inv _ _ h
  · exact h

theorem dictMsgStep_inv (e : EvState) (m : Value) (h : evInv e) :
    evInv (dictMsgStep e m) :=
  applyPreferMeta_inv _ _ (assistantEmitStep_inv _ _ h)

theorem mdPreferFoldStep_inv (e : EvState) (md : List (String × Value))
    (h : evInv e) : evInv (mdPreferFoldStep e md) := h

theorem listBranch_inv (e : EvState) (data : Value) (h : evInv e) :
    evInv (listBranch e data) := by
  cases data <;> first
    | exact h
    | exact foldl_inv msgTextMetaStep msgTextMetaStep_inv _ e h

theorem dictBranch_inv (e : EvState) (evt : String) (data : Value) (h : evInv e) :
    evInv (dictBranch e evt data) := by
  cases data <;> first
    | exact h
    | (simp only [dictBranch]
       split
       · exact foldl_inv dictMsgStep dictMsgStep_inv _ e h
       · exact h)

theorem valuesBranch_inv (e : EvState) (evt : String) (data : Value) (h : evInv e) :
    evInv (valuesBranch e evt data) := by
  simp only [valuesBranch]
  split
  · refine applyDirectMeta_inv _ _ ?_
    split
    · exact h
    · exact h
  · exact h

theorem tokenBranch_inv (e : EvState) (evt : String) (data : Value) (h : evInv e) :
    evInv (tokenBranch e evt data) := by
  simp only [tokenBranch]
  split
  · exact h
  · constructor
    · rw [linesOf_append]
      simpa [linesOf] using h.1
    · intro t ht
      rw [linesOf_append] at ht
      simp only [linesOf, List.append_nil] at ht
      exact h.2 t ht

theorem messagesFieldBranch_inv (e : EvState) (data : Value) (h : evInv e) :
    evInv (messagesFieldBranch e data) := by
  simp only [messagesFieldBranch]
  split
  · exact foldl_inv msgTextMetaStep msgTextMetaStep_inv _ e h
  · exact h
  · exact h

theorem updatesBranch_inv (e : EvState) (evt : String) (data : Value) (h : evInv e) :
    evInv (updatesBranch e evt data) := by
  simp only [updatesBranch]
  split
  · cases data <;> try exact h
    all_goals
      exact foldl_inv mdPreferFoldStep mdPreferFoldStep_inv _ _
        (foldl_inv emitLine emitLine_inv _ e h)
  · exact h

theorem containerBranch_id_of_no_auth (e : EvState) (data : Value)
    (hc : containerAuth data = []) : containerBranch e data = e := by
  cases data <;> try rfl
  next kvs =>
    simp only [containerAuth] at hc
    have hall := List.filterMap_eq_nil_iff.mp hc
    simp only [containerBranch]
    have : ∀ (keys : List String), (∀ k ∈ keys, containerTextOf kvs k = none) →
        ∀ e : EvState, keys.foldl (containerKeyStep kvs) e = e := by
      intro keys
      induction keys with
      | nil => intro _ e; rfl
      | cons k tl ih =>
          intro hk e
          rw [List.foldl_cons]
          have hstep : containerKeyStep kvs e k = e := by
            have hkn := hk k (by simp)
            simp only [containerKeyStep, containerTextOf] at hkn ⊢
            cases hl : lookupV kvs k with
            | none => rfl
            | some v =>
                rw [hl] at hkn
                by_cases hn : isNullV v = true
                · simp [hn]
                · simp only [hn, Bool.false_eq_true, if_false] at hkn ⊢
                  by_cases hcv : extract_message_content v = ""
                  · simp [hcv]
                  · simp [hcv] at hkn
          rw [hstep]
          exact ih (fun k2 hk2 => hk k2 (by simp [hk2])) e
    exact this containerKeys hall e

/-- C3 (amended): within a single event, the same literal text is surfaced
with a newline at most once by the set-tracked rules (direct message list,
nested node messages, messages field, recursive assistant-text scan) —
provided the fallback result-container scan contributes no text for the
event; that scan prints without consulting the per-event seen set, so the
unrestricted claim fails (see the counterexample). -/
theorem c3_per_event_dedup (st : LoopState) (ev : Event) (t : String)
    (hc : containerAuth ev.data = []) :
    (linesOf (stepEvent st ev).2).count t ≤ 1 := by
  have h0 : evInv ⟨st, [], []⟩ := ⟨List.nodup_nil, by intro x hx; cases hx⟩
  have h6 : evInv (updatesBranch (messagesFieldBranch (tokenBranch (valuesBranch
      (dictBranch (listBranch ⟨st, [], []⟩ ev.data) ev.event ev.data)
      ev.event ev.data) ev.event ev.data) ev.data) ev.event ev.data) :=
    updatesBranch_inv _ _ _ (messagesFieldBranch_inv _ _ (tokenBranch_inv _ _ _
      (valuesBranch_inv _ _ _ (dictBranch_inv _ _ _
        (listBranch_inv _ _ h0)))))
  simp only [stepEvent]
  rw [containerBranch_id_of_no_auth _ _ hc]
  exact List.nodup_iff_count_le_one.mp h6.1 t

def c3CexEv : Event :=
  ⟨"e", .vdict
    [("messages", .vlist [.vdict [("type", .vstr "ai"), ("content", .vstr "X")]]),
     ("result", .vdict [("content", .vstr "X")])]⟩

/-- C3 counterexample: an event carrying the same text both in its messages
list and in a result container surfaces that text twice within the event —
the container print at lines 480-487 bypasses the per-event seen set — so
the claim fails as stated for the listed rules. -/
theorem c3_per_event_dedup_cex :
    linesOf (stepEvent initState c3CexEv).2 = ["X", "X"]
    ∧ ¬ ((linesOf (stepEvent initState c3CexEv).2).count "X" ≤ 1) :=
  ⟨rfl, by decide⟩

def c3WEv : Event :=
  ⟨"e", .vdict [("messages", .vlist
    [.vdict [("type", .vstr "ai"), ("content", .vstr "X")]])]⟩

/-- C3 witness: the at-most-once property at a concrete event without
container text. -/
theorem c3_per_event_dedup_w :
    (linesOf (stepEvent initState c3WEv).2).count "X" ≤ 1 :=
  c3_per_event_dedup initState c3WEv "X" rfl
